import Mathlib

/-!
Shallow embedding of the generation orchestration layer of the
music-maker repository: the resilient HTTP transport
(`src/ai/openai_client.py`, `OpenAIClient._make_request`), the strict-JSON /
pattern-recovery output parsing (`generate_melody`, `generate_arrangement`,
`_parse_melody_from_text`, `_parse_arrangement_from_text`), prompt
validation (`src/ai/base.py`, `BaseAIGenerator._validate_prompt`), and the
provider registry (`src/ai/generator.py`, `GeneratorManager`).

Modelling conventions: Python floats are rationals (every value appearing
in the verified properties is exactly representable), Python dicts are
insertion-ordered association lists with replace-in-place update, and the
`requests` HTTP boundary is a trace of per-attempt outcomes.  Python
regular-expression matching (`re.findall` with `re.IGNORECASE` and
optionally `re.DOTALL`) is embedded by a backtracking matcher over the
token sequence of the two concrete patterns used by the code, with the
same candidate ordering as the backtracking engine: greedy classes try
longest first, lazy wildcards try shortest first, scanning is leftmost
non-overlapping.
-/

namespace MusicMaker

/-- ASCII lower-casing, as applied by `re.IGNORECASE` on the ASCII inputs
relevant here. -/
def lowerChar (c : Char) : Char :=
  if 'A' ≤ c ∧ c ≤ 'Z' then Char.ofNat (c.toNat + 32) else c

/-- Case-insensitive "the second list starts with the first". -/
def startsWithCI : List Char → List Char → Bool
  | [], _ => true
  | _ :: _, [] => false
  | p :: ps, c :: cs => (lowerChar p == lowerChar c) && startsWithCI ps cs

/-- Python `\s` (ASCII range): space, tab, newline, carriage return,
vertical tab, form feed. -/
def isPyWs (c : Char) : Bool :=
  [' ', '\t', '\n', '\r', '\x0b', '\x0c'].contains c

/-- The character class `[:\s]` of the recovery patterns. -/
def isColonWs (c : Char) : Bool := c == ':' || isPyWs c

/-- The character class `\d` (ASCII digits). -/
def isAsciiDigit (c : Char) : Bool := '0' ≤ c && c ≤ '9'

/-- The character class `[\d.]` of the recovery patterns. -/
def isDigitOrDot (c : Char) : Bool := isAsciiDigit c || c == '.'

/-- `.` without `re.DOTALL`: any character except a newline. -/
def notNewline (c : Char) : Bool := !(c == '\n')

/-- `.` with `re.DOTALL`: any character. -/
def anyChar (_ : Char) : Bool := true

/-- The character class `\w` (ASCII range). -/
def isWordChar (c : Char) : Bool :=
  c.isAlpha || isAsciiDigit c || c == '_'

/-- One token of a regular expression pattern: a case-insensitive literal,
a greedy one-or-more character class (`[:\s]+`, `(\d+)`, `([\d.]+)`,
`(\w+)`), or a lazy zero-or-more wildcard (`.*?` / `(.*?)`).  `cap` marks
capturing groups. -/
inductive Tok where
  | lit (s : String)
  | plus (p : Char → Bool) (cap : Bool)
  | lazyStar (p : Char → Bool) (cap : Bool)

/-- Backtracking matcher for a token sequence anchored at the start of
`cs`; returns the captured groups in order and the remaining suffix after
the match.  Candidate ordering mirrors the Python engine: a greedy class
tries the longest feasible length first and shrinks, a lazy wildcard tries
zero characters first and grows.  `fuel` only bounds the token recursion
(one unit per token), so `ts.length + 1` is always sufficient. -/
def matchSeq : Nat → List Tok → List Char → Option (List (List Char) × List Char)
  | 0, _, _ => none
  | _ + 1, [], cs => some ([], cs)
  | fuel + 1, Tok.lit s :: ts, cs =>
      if startsWithCI s.data cs then matchSeq fuel ts (cs.drop s.data.length)
      else none
  | fuel + 1, Tok.plus p cap :: ts, cs =>
      ((List.range ((cs.takeWhile p).length)).reverse.map (fun i => i + 1)).findSome?
        (fun k =>
          (matchSeq fuel ts (cs.drop k)).map (fun r =>
            (if cap then cs.take k :: r.1 else r.1, r.2)))
  | fuel + 1, Tok.lazyStar p cap :: ts, cs =>
      (List.range ((cs.takeWhile p).length + 1)).findSome? (fun k =>
        (matchSeq fuel ts (cs.drop k)).map (fun r =>
          (if cap then cs.take k :: r.1 else r.1, r.2)))

/-- `re.findall` scanning loop: try a match at each position left to
right; on a match, continue right after it (non-overlapping), otherwise
advance one character.  `fuel` bounds the scan; `text.length + 1` is
sufficient for the patterns used here, which never match empty. -/
def findallGo (ts : List Tok) : Nat → List Char → List (List (List Char))
  | 0, _ => []
  | _ + 1, [] => []
  | fuel + 1, c :: rest =>
      match matchSeq (ts.length + 1) ts (c :: rest) with
      | some (caps, restAfter) => caps :: findallGo ts fuel restAfter
      | none => findallGo ts fuel rest

/-- `re.findall(pattern, text, flags)`: the list of capture tuples of all
non-overlapping matches. -/
def findall (ts : List Tok) (text : List Char) : List (List (List Char)) :=
  findallGo ts (text.length + 1) text

/-- Token sequence of the melody recovery pattern
`pitch[:\s]+(\d+).*?start_time[:\s]+([\d.]+).*?duration[:\s]+([\d.]+).*?velocity[:\s]+(\d+)`
compiled with `re.IGNORECASE` (so `.` does not cross newlines). -/
def melodyToks : List Tok :=
  [Tok.lit "pitch", Tok.plus isColonWs false, Tok.plus isAsciiDigit true,
   Tok.lazyStar notNewline false,
   Tok.lit "start_time", Tok.plus isColonWs false, Tok.plus isDigitOrDot true,
   Tok.lazyStar notNewline false,
   Tok.lit "duration", Tok.plus isColonWs false, Tok.plus isDigitOrDot true,
   Tok.lazyStar notNewline false,
   Tok.lit "velocity", Tok.plus isColonWs false, Tok.plus isAsciiDigit true]

/-- Token sequence of the per-note pattern used inside a recovered track
(`note_pattern` in `_parse_arrangement_from_text`): the melody pattern
wrapped in `\{.*?` and `.*?\}`, compiled with `re.IGNORECASE` only. -/
def noteToks : List Tok :=
  Tok.lit "\x7b" :: Tok.lazyStar notNewline false ::
    (melodyToks ++ [Tok.lazyStar notNewline false, Tok.lit "\x7d"])

/-- Token sequence of the track pattern
`track[:\s]+(\w+).*?notes[:\s]+\[(.*?)\]` compiled with
`re.IGNORECASE | re.DOTALL` (so `.` crosses newlines). -/
def trackToks : List Tok :=
  [Tok.lit "track", Tok.plus isColonWs false, Tok.plus isWordChar true,
   Tok.lazyStar anyChar false,
   Tok.lit "notes", Tok.plus isColonWs false, Tok.lit "[",
   Tok.lazyStar anyChar true, Tok.lit "]"]

/-- Case-insensitive substring occurrence (used to state that a field
name is present in a text). -/
def occursCI (pat : String) (text : String) : Bool :=
  !(findall [Tok.lit pat] text.data).isEmpty

/-- Numeric value of a digit string. -/
def digitsToNat (ds : List Char) : Nat :=
  ds.foldl (fun acc c => acc * 10 + (c.toNat - '0'.toNat)) 0

/-- Python `str.strip()` on a character list (ASCII whitespace). -/
def stripList (cs : List Char) : List Char :=
  ((cs.dropWhile isPyWs).reverse.dropWhile isPyWs).reverse

/-- Python `str.strip()`. -/
def pyStrip (s : String) : String := String.mk (stripList s.data)

/-- One-or-more digits, else failure. -/
def digitsVal : List Char → Option Nat
  | [] => none
  | ds => if ds.all isAsciiDigit then some (digitsToNat ds) else none

/-- Python `int(str)` on the strings reachable from the recovery patterns:
optional surrounding whitespace, optional sign, one-or-more digits;
anything else raises `ValueError` (`none`).  (Underscore digit grouping is
not modelled; it cannot occur in a `(\d+)` capture.) -/
def pyInt (cs0 : List Char) : Option Int :=
  let cs := stripList cs0
  match cs with
  | '-' :: ds => (digitsVal ds).map (fun n : Nat => -(n : Int))
  | '+' :: ds => (digitsVal ds).map (fun n : Nat => (n : Int))
  | ds => (digitsVal ds).map (fun n : Nat => (n : Int))

/-- An optional leading sign, as read by `float(str)`. -/
def pySign : List Char → ℚ × List Char
  | '-' :: r => (-1, r)
  | '+' :: r => (1, r)
  | r => (1, r)

/-- The unsigned part of `float(str)`: a mantissa `digits`, `digits.`,
`.digits` or `digits.digits`, and an optional exponent `(e|E)[sign]digits`
ending the string; anything else raises `ValueError` (`none`). -/
def pyFloatMag (cs1 : List Char) : Option ℚ :=
  let ip := cs1.takeWhile isAsciiDigit
  let rest1 := cs1.drop ip.length
  let fr : List Char × List Char :=
    match rest1 with
    | '.' :: r => (r.takeWhile isAsciiDigit, r.drop (r.takeWhile isAsciiDigit).length)
    | r => ([], r)
  if ip.isEmpty && fr.1.isEmpty then none
  else
    let mant : ℚ :=
      (digitsToNat ip : ℚ) + (digitsToNat fr.1 : ℚ) / (10 : ℚ) ^ fr.1.length
    match fr.2 with
    | [] => some mant
    | e :: r =>
      if e == 'e' || e == 'E' then
        let er : Int × List Char :=
          match r with
          | '-' :: rr => ((-1 : Int), rr)
          | '+' :: rr => ((1 : Int), rr)
          | rr => ((1 : Int), rr)
        if !er.2.isEmpty && er.2.all isAsciiDigit then
          some (mant * (10 : ℚ) ^ ((er.1 * (digitsToNat er.2 : Int))))
        else none
      else none

/-- Python `float(str)` on the strings reachable from the recovery
patterns: optional surrounding whitespace, optional sign, then the
unsigned magnitude; anything else raises `ValueError` (`none`).
(`inf`/`nan` and underscore grouping are not modelled; they cannot occur
in a `([\d.]+)` capture.) -/
def pyFloat (cs0 : List Char) : Option ℚ :=
  let sc := pySign (stripList cs0)
  (pyFloatMag sc.2).map (fun m => sc.1 * m)

/-- A recovered note, as built by the recovery loops: the Python dict
`\x7b'pitch': int(..), 'start_time': float(..), 'duration': float(..),
'velocity': int(..)\x7d`. -/
structure Note where
  pitch : Int
  start_time : ℚ
  duration : ℚ
  velocity : Int
deriving DecidableEq, Repr

/-- Body of the note-building loop: coerce the four captures of one match
(`int`, `float`, `float`, `int`); a coercion failure raises (`none`). -/
def mkNote (caps : List (List Char)) : Option Note :=
  match caps with
  | [p, st, d, v] => do
      let pitch ← pyInt p
      let start_time ← pyFloat st
      let duration ← pyFloat d
      let velocity ← pyInt v
      some ⟨pitch, start_time, duration, velocity⟩
  | _ => none

/-- The append loop over matches shared by both recovery functions: build
one item per match in order; an exception while building any item
(`none`) aborts the whole loop. -/
def collectSome {α β : Type} (f : α → Option β) : List α → Option (List β)
  | [] => some []
  | a :: rest =>
      match f a, collectSome f rest with
      | some b, some bs => some (b :: bs)
      | _, _ => none

/-- `OpenAIClient._parse_melody_from_text`: find all matches of the melody
pattern and build one note per match; `none` models an exception escaping
the loop (a failed coercion), which aborts the whole parse. -/
def parse_melody_from_text (text : String) : Option (List Note) :=
  collectSome mkNote (findall melodyToks text.data)

/-- A recovered track, as built by `_parse_arrangement_from_text`:
the Python dict `\x7b'name': .., 'notes': ..\x7d`. -/
structure Track where
  name : String
  notes : List Note
deriving DecidableEq, Repr

/-- Body of the track-building loop of `_parse_arrangement_from_text`:
the first capture is the track name, the second is the bracketed note
text, to which the per-note pattern is applied. -/
def mkTrack (caps : List (List Char)) : Option Track :=
  match caps with
  | [nm, notesText] =>
      (collectSome mkNote (findall noteToks notesText)).map (fun ns => ⟨String.mk nm, ns⟩)
  | _ => none

/-- `OpenAIClient._parse_arrangement_from_text`, reduced to its track
list: the Python function returns the dict `\x7b'tracks': tracks\x7d`,
embedded here as the list itself (the arrangement postprocessing wraps
it). -/
def parse_arrangement_from_text (text : String) : Option (List Track) :=
  collectSome mkTrack (findall trackToks text.data)

/-- A decoded JSON value, as produced by `json.loads`: Python ints and
floats are separated as the decoder separates them (no fraction and no
exponent gives an int), floats are modelled as rationals. -/
inductive JVal where
  | jnull
  | jbool (b : Bool)
  | jint (n : Int)
  | jfloat (q : ℚ)
  | jstr (s : String)
  | jarr (xs : List JVal)
  | jobj (kvs : List (String × JVal))

/-- Python dict insert-or-replace: replacing keeps the original position,
a fresh key is appended (insertion order). -/
def dictInsert {α : Type} (k : String) (v : α) (d : List (String × α)) :
    List (String × α) :=
  if d.any (fun kv => kv.1 == k) then
    d.map (fun kv => if kv.1 == k then (k, v) else kv)
  else d ++ [(k, v)]

/-- JSON inter-token whitespace. -/
def isJsonWs (c : Char) : Bool := [' ', '\t', '\n', '\r'].contains c

/-- Skip JSON whitespace. -/
def skipWs (cs : List Char) : List Char := cs.dropWhile isJsonWs

/-- Value of a hexadecimal digit (by code point: 48-57 are the digits,
97-102 and 65-70 the lower and upper letters). -/
def hexVal (c : Char) : Option Nat :=
  let n := c.toNat
  if 48 ≤ n && n ≤ 57 then some (n - 48)
  else if 97 ≤ n && n ≤ 102 then some (n - 87)
  else if 65 ≤ n && n ≤ 70 then some (n - 55)
  else none

/-- JSON string body (after the opening quote): literal characters and
the standard escapes, ending at the closing quote.  Raw control
characters are rejected (strict mode).  (Surrogate-pair recombination is
not modelled; no property here involves `\u` escapes.) -/
def pStrBody (fuel : Nat) (cs : List Char) (acc : List Char) :
    Option (String × List Char) :=
  match fuel with
  | 0 => none
  | fuel + 1 =>
    match cs with
    | [] => none
    | '"' :: rest => some (String.mk acc.reverse, rest)
    | '\\' :: esc =>
      match esc with
      | '"' :: r => pStrBody fuel r ('"' :: acc)
      | '\\' :: r => pStrBody fuel r ('\\' :: acc)
      | '/' :: r => pStrBody fuel r ('/' :: acc)
      | 'b' :: r => pStrBody fuel r ('\x08' :: acc)
      | 'f' :: r => pStrBody fuel r ('\x0c' :: acc)
      | 'n' :: r => pStrBody fuel r ('\n' :: acc)
      | 'r' :: r => pStrBody fuel r ('\r' :: acc)
      | 't' :: r => pStrBody fuel r ('\t' :: acc)
      | 'u' :: h1 :: h2 :: h3 :: h4 :: r => do
          let a ← hexVal h1
          let b ← hexVal h2
          let c ← hexVal h3
          let d ← hexVal h4
          pStrBody fuel r (Char.ofNat (((a * 16 + b) * 16 + c) * 16 + d) :: acc)
      | _ => none
    | c :: rest => if c.toNat < 32 then none else pStrBody fuel rest (c :: acc)

/-- JSON number scanner (the decoder's `NUMBER_RE`): optional minus, int
part `0 | [1-9][0-9]*`, optional well-formed fraction, optional
well-formed exponent; a malformed fraction/exponent simply is not
consumed (it then trips the caller as unexpected trailing input). -/
def pNum (cs : List Char) : Option (JVal × List Char) :=
  let sn : Bool × List Char :=
    match cs with
    | '-' :: r => (true, r)
    | r => (false, r)
  let neg := sn.1
  let cs1 := sn.2
  let ipr : Option (List Char × List Char) :=
    match cs1 with
    | '0' :: r => some (['0'], r)
    | c :: _ =>
        if isAsciiDigit c then
          some (cs1.takeWhile isAsciiDigit, cs1.drop (cs1.takeWhile isAsciiDigit).length)
        else none
    | [] => none
  match ipr with
  | none => none
  | some (ip, rest1) =>
    let fr : List Char × List Char :=
      match rest1 with
      | '.' :: r =>
          let ds := r.takeWhile isAsciiDigit
          if ds.isEmpty then ([], rest1) else (ds, r.drop ds.length)
      | _ => ([], rest1)
    let fp := fr.1
    let rest2 := fr.2
    let ex : Option Int × List Char :=
      match rest2 with
      | e :: r =>
        if e == 'e' || e == 'E' then
          let sr : Int × List Char :=
            match r with
            | '-' :: rr => ((-1 : Int), rr)
            | '+' :: rr => ((1 : Int), rr)
            | rr => ((1 : Int), rr)
          let ds := sr.2.takeWhile isAsciiDigit
          if ds.isEmpty then (none, rest2)
          else (some (sr.1 * (digitsToNat ds : Int)), sr.2.drop ds.length)
        else (none, rest2)
      | [] => (none, rest2)
    let rest3 := ex.2
    if fp.isEmpty && ex.1.isNone then
      let v : Int := if neg then -(digitsToNat ip : Int) else (digitsToNat ip : Int)
      some (JVal.jint v, rest3)
    else
      let mant : ℚ := (digitsToNat ip : ℚ) + (digitsToNat fp : ℚ) / (10 : ℚ) ^ fp.length
      let q0 := mant * (10 : ℚ) ^ (ex.1.getD 0)
      some (JVal.jfloat (if neg then -q0 else q0), rest3)

mutual

/-- JSON value parser: whitespace, then a string, array, object, literal
or number; returns the value and the unconsumed suffix. -/
def pVal (fuel : Nat) (cs : List Char) : Option (JVal × List Char) :=
  match fuel with
  | 0 => none
  | fuel + 1 =>
    let cs := skipWs cs
    match cs with
    | '"' :: r => (pStrBody (r.length + 1) r []).map (fun sr => (JVal.jstr sr.1, sr.2))
    | '[' :: r =>
        let r2 := skipWs r
        match r2 with
        | ']' :: r3 => some (JVal.jarr [], r3)
        | _ => (pArrItems fuel r2 []).map (fun ar => (JVal.jarr ar.1, ar.2))
    | '\x7b' :: r =>
        let r2 := skipWs r
        match r2 with
        | '\x7d' :: r3 => some (JVal.jobj [], r3)
        | _ => (pObjItems fuel r2 []).map (fun ar => (JVal.jobj ar.1, ar.2))
    | 't' :: 'r' :: 'u' :: 'e' :: r => some (JVal.jbool true, r)
    | 'f' :: 'a' :: 'l' :: 's' :: 'e' :: r => some (JVal.jbool false, r)
    | 'n' :: 'u' :: 'l' :: 'l' :: r => some (JVal.jnull, r)
    | _ => pNum cs

/-- Array elements after `[` (nonempty case): value, then `,` and more
elements or the closing `]`. -/
def pArrItems (fuel : Nat) (cs : List Char) (acc : List JVal) :
    Option (List JVal × List Char) :=
  match fuel with
  | 0 => none
  | fuel + 1 =>
    match pVal fuel cs with
    | none => none
    | some (v, rest) =>
      match skipWs rest with
      | ',' :: r => pArrItems fuel (skipWs r) (v :: acc)
      | ']' :: r => some ((v :: acc).reverse, r)
      | _ => none

/-- Object members after `\x7b` (nonempty case): quoted key, `:`, value,
then `,` and more members or the closing `\x7d`; a duplicate key replaces
the earlier value in place, as a Python dict does. -/
def pObjItems (fuel : Nat) (cs : List Char) (acc : List (String × JVal)) :
    Option (List (String × JVal) × List Char) :=
  match fuel with
  | 0 => none
  | fuel + 1 =>
    match cs with
    | '"' :: r =>
      match pStrBody (r.length + 1) r [] with
      | none => none
      | some (key, rest) =>
        match skipWs rest with
        | ':' :: r2 =>
          match pVal fuel (skipWs r2) with
          | none => none
          | some (v, rest2) =>
            match skipWs rest2 with
            | ',' :: r3 => pObjItems fuel (skipWs r3) (dictInsert key v acc)
            | '\x7d' :: r3 => some (dictInsert key v acc, r3)
            | _ => none
        | _ => none
    | _ => none

end

/-- `json.loads`: parse one value with optional surrounding whitespace;
trailing input is an error.  The fuel is always sufficient: at least one
input character is consumed per two recursion levels.  (The non-standard
`NaN`/`Infinity` constants the Python decoder also accepts are not
modelled — they have no rational value; no property here involves
them.) -/
def jsonLoads (s : String) : Option JVal :=
  match pVal (2 * s.length + 16) s.data with
  | some (v, rest) => if (skipWs rest).isEmpty then some v else none
  | none => none

/-- Python `d[k]` for a JSON value: only a dict supports string lookup;
everything else raises (`none`). -/
def jget (v : JVal) (k : String) : Option JVal :=
  match v with
  | JVal.jobj kvs => kvs.lookup k
  | _ => none

/-- Python `len` on a decoded JSON value: defined for lists, dicts and
strings; anything else raises `TypeError` (`none`). -/
def pyLen : JVal → Option Nat
  | JVal.jarr xs => some xs.length
  | JVal.jobj kvs => some kvs.length
  | JVal.jstr s => some s.length
  | _ => none

/-- Numeric value of a JSON number (Python `==` compares int and float by
value). -/
def jnumVal : JVal → Option ℚ
  | JVal.jint n => some (n : ℚ)
  | JVal.jfloat q => some q
  | _ => none

/-- Numeric field of a decoded JSON object. -/
def jnumField (v : JVal) (k : String) : Option ℚ := (jget v k).bind jnumVal

/-- A decoded JSON object carries exactly the four fields of a note, with
the same numeric values (Python `==` semantics on numbers). -/
def noteMatches (v : JVal) (n : Note) : Prop :=
  jnumField v "pitch" = some (n.pitch : ℚ) ∧
  jnumField v "start_time" = some n.start_time ∧
  jnumField v "duration" = some n.duration ∧
  jnumField v "velocity" = some (n.velocity : ℚ)

/-- What one physical HTTP attempt inside `_make_request` comes back
with: an HTTP response (status plus parsed JSON body), a
`requests.exceptions.Timeout`, or another connection-level
`requests.exceptions.RequestException`. -/
inductive AttemptOutcome where
  | response (status : Nat) (body : JVal)
  | timeout
  | connError

/-- The underlying cause carried by a `NetworkException` (distinguished by
its message: timeout, `raise_for_status` HTTP error, or connection
failure). -/
inductive Cause where
  | timeout
  | httpError (status : Nat)
  | connFailure
deriving DecidableEq, Repr

/-- A terminal exception of `_make_request`: `APIException("API密钥无效",
status_code=401)`, a `NetworkException` with its cause, or the
`NetworkException("请求失败，未知错误")` fallback of the final line. -/
inductive ReqError where
  | apiKeyInvalid (status_code : Nat)
  | network (cause : Cause)
  | unknownNetwork
deriving DecidableEq, Repr

/-- Observable behaviour of one `_make_request` call: the returned body
or raised exception, how many physical attempts were made, and the
`time.sleep` durations (seconds) in order. -/
structure RunLog where
  result : Except ReqError JVal
  attempts : Nat
  sleeps : List Nat

/-- `response.raise_for_status()` raises `requests.exceptions.HTTPError`
exactly for 4xx and 5xx statuses. -/
def statusIsError (s : Nat) : Bool := 400 ≤ s && s < 600

/-- The retry loop of `_make_request` (`for attempt in
range(self.max_retries)`), driven by the trace of per-attempt outcomes.
A 401 response raises `APIException` immediately (it is not a
`requests.exceptions.RequestException`, so the handlers do not catch it).
A timeout, a connection failure, or an HTTP error status raises a
`RequestException`, which is caught: on a non-final attempt the loop
sleeps `2 ** attempt` seconds and continues, on the final attempt the
wrapped `NetworkException` is raised.  Any other response returns the
parsed body.  (The empty-trace case with attempts remaining is a
modelling artifact; every property supplies a covering trace.) -/
def requestLoop (maxRetries : Nat) :
    List AttemptOutcome → Nat → Option ReqError → RunLog
  | [], attempt, lastError =>
      ⟨Except.error (lastError.getD ReqError.unknownNetwork), attempt, []⟩
  | o :: rest, attempt, lastError =>
      if attempt < maxRetries then
        match o with
        | AttemptOutcome.response s body =>
            if s == 401 then
              ⟨Except.error (ReqError.apiKeyInvalid 401), attempt + 1, []⟩
            else if statusIsError s then
              let e := ReqError.network (Cause.httpError s)
              if attempt < maxRetries - 1 then
                let rl := requestLoop maxRetries rest (attempt + 1) (some e)
                ⟨rl.result, rl.attempts, 2 ^ attempt :: rl.sleeps⟩
              else ⟨Except.error e, attempt + 1, []⟩
            else ⟨Except.ok body, attempt + 1, []⟩
        | AttemptOutcome.timeout =>
            let e := ReqError.network Cause.timeout
            if attempt < maxRetries - 1 then
              let rl := requestLoop maxRetries rest (attempt + 1) (some e)
              ⟨rl.result, rl.attempts, 2 ^ attempt :: rl.sleeps⟩
            else ⟨Except.error e, attempt + 1, []⟩
        | AttemptOutcome.connError =>
            let e := ReqError.network Cause.connFailure
            if attempt < maxRetries - 1 then
              let rl := requestLoop maxRetries rest (attempt + 1) (some e)
              ⟨rl.result, rl.attempts, 2 ^ attempt :: rl.sleeps⟩
            else ⟨Except.error e, attempt + 1, []⟩
      else ⟨Except.error (lastError.getD ReqError.unknownNetwork), attempt, []⟩

/-- `OpenAIClient._make_request` with the constructor's
`self.max_retries = 3`. -/
def make_request (trace : List AttemptOutcome) : RunLog :=
  requestLoop 3 trace 0 none

/-- A retryable attempt outcome in the sense of the two `except` handlers
that retry: a timeout or a connection-level failure. -/
def transient (o : AttemptOutcome) : Prop :=
  o = AttemptOutcome.timeout ∨ o = AttemptOutcome.connError

/-- The `NetworkException` cause an attempt outcome produces when it is
treated as a failure. -/
def causeOf : AttemptOutcome → Cause
  | AttemptOutcome.response s _ => Cause.httpError s
  | AttemptOutcome.timeout => Cause.timeout
  | AttemptOutcome.connError => Cause.connFailure

/-- A typed exception escaping a generator method: the `ValueError` of
`_validate_prompt`, or the blanket `APIException` wrap of each generate
method's `except Exception` handler. -/
inductive GenError where
  | valueError (msg : String)
  | apiException (msg : String)
deriving DecidableEq, Repr

/-- A generator call's result, paired with the number of physical HTTP
requests issued during the call. -/
structure CallOutcome (α : Type) where
  result : Except GenError α
  httpCalls : Nat

/-- `BaseAIGenerator._validate_prompt` raises exactly when the prompt is
empty or whitespace-only (`not prompt or not prompt.strip()`). -/
def promptInvalid (prompt : String) : Bool := (stripList prompt.data).isEmpty

/-- `response['choices'][0]['message']['content']` on the parsed body;
any missing key, wrong shape, or non-string content raises into the
method's blanket handler (`none`). -/
def extractContent (body : JVal) : Option String :=
  match jget body "choices" with
  | some (JVal.jarr (c0 :: _)) =>
    match (jget c0 "message").bind (fun msg => jget msg "content") with
    | some (JVal.jstr s) => some s
    | _ => none
  | _ => none

/-- `response.get('usage', \x7b\x7d).get('total_tokens', 0)`; a non-dict
response or usage raises (`none`). -/
def tokensUsed (body : JVal) : Option JVal :=
  match body with
  | JVal.jobj kvs =>
    match (kvs.lookup "usage").getD (JVal.jobj []) with
    | JVal.jobj u => some ((u.lookup "total_tokens").getD (JVal.jint 0))
    | _ => none
  | _ => none

/-- `_format_result('lyrics', ...)`: the envelope returned by a lyrics
generation (metadata reduced to the token count; the provider/style
strings are not referenced by any verified property). -/
structure LyricsResult where
  rtype : String
  data : String
  tokens_used : JVal
  success : Bool

/-- The `data` of a melody result: either the raw value strict JSON
decoding produced, or a list of note dicts (pattern recovery, and the
offline generator's canned list). -/
inductive MelodyData where
  | decoded (v : JVal)
  | notes (ns : List Note)

/-- `_format_result('melody', ...)`: the envelope returned by a melody
generation (metadata reduced to `notes_count`). -/
structure MelodyResult where
  rtype : String
  data : MelodyData
  notes_count : Nat
  success : Bool

/-- The `data` of an arrangement result: either the raw strict-decode
value, or the recovered/canned `\x7b'tracks': ...\x7d` dict, reduced to
its track list. -/
inductive ArrangementData where
  | decoded (v : JVal)
  | tracks (ts : List Track)

/-- `_format_result('arrangement', ...)`: the envelope returned by an
arrangement generation (metadata reduced to `tracks_count`). -/
structure ArrangementResult where
  rtype : String
  data : ArrangementData
  tracks_count : Nat
  success : Bool

/-- Lines 175-188 of `generate_melody`, applied to the stripped message
content: strict `json.loads` first; only on a decode error, pattern
recovery.  `notes_count` is `len(notes)` (`none` if that raises). -/
def melodyPostprocess (content : String) : Option MelodyResult :=
  match jsonLoads content with
  | some v => (pyLen v).map (fun n => ⟨"melody", MelodyData.decoded v, n, true⟩)
  | none =>
    match parse_melody_from_text content with
    | some ns => some ⟨"melody", MelodyData.notes ns, ns.length, true⟩
    | none => none

/-- `len(arrangement.get('tracks', []))` on a strict-decoded arrangement
(`none` when `.get` or `len` raises). -/
def arrTracksLen (v : JVal) : Option Nat :=
  match v with
  | JVal.jobj kvs => pyLen ((kvs.lookup "tracks").getD (JVal.jarr []))
  | _ => none

/-- Lines 235-248 of `generate_arrangement`, applied to the stripped
message content: strict decode first, pattern recovery only on a decode
error. -/
def arrangementPostprocess (content : String) : Option ArrangementResult :=
  match jsonLoads content with
  | some v =>
      (arrTracksLen v).map (fun n => ⟨"arrangement", ArrangementData.decoded v, n, true⟩)
  | none =>
    match parse_arrangement_from_text content with
    | some ts => some ⟨"arrangement", ArrangementData.tracks ts, ts.length, true⟩
    | none => none

/-- `OpenAIClient.generate_lyrics`: validation (outside the handler, so
its `ValueError` escapes unwrapped and no request is made), then the
transport, extraction and formatting, with every exception of that body
wrapped as `APIException("生成歌词失败")`. -/
def openaiGenerateLyrics (prompt : String) (trace : List AttemptOutcome) :
    CallOutcome LyricsResult :=
  if promptInvalid prompt then ⟨Except.error (GenError.valueError "提示词不能为空"), 0⟩
  else
    let rl := make_request trace
    match rl.result with
    | Except.ok body =>
      match extractContent body, tokensUsed body with
      | some content, some tk =>
          ⟨Except.ok ⟨"lyrics", pyStrip content, tk, true⟩, rl.attempts⟩
      | _, _ => ⟨Except.error (GenError.apiException "生成歌词失败"), rl.attempts⟩
    | Except.error _ => ⟨Except.error (GenError.apiException "生成歌词失败"), rl.attempts⟩

/-- `OpenAIClient.generate_melody`: validation first (unwrapped, no
request), then transport, extraction, strict-or-recovered parsing and
formatting, with body exceptions wrapped as `APIException("生成旋律失败")`. -/
def openaiGenerateMelody (prompt : String) (trace : List AttemptOutcome) :
    CallOutcome MelodyResult :=
  if promptInvalid prompt then ⟨Except.error (GenError.valueError "提示词不能为空"), 0⟩
  else
    let rl := make_request trace
    match rl.result with
    | Except.ok body =>
      match (extractContent body).bind (fun c => melodyPostprocess (pyStrip c)) with
      | some r => ⟨Except.ok r, rl.attempts⟩
      | none => ⟨Except.error (GenError.apiException "生成旋律失败"), rl.attempts⟩
    | Except.error _ => ⟨Except.error (GenError.apiException "生成旋律失败"), rl.attempts⟩

/-- `OpenAIClient.generate_arrangement`: validation first (unwrapped, no
request), then transport, extraction, strict-or-recovered parsing and
formatting, with body exceptions wrapped as `APIException("生成编曲失败")`. -/
def openaiGenerateArrangement (prompt : String) (trace : List AttemptOutcome) :
    CallOutcome ArrangementResult :=
  if promptInvalid prompt then ⟨Except.error (GenError.valueError "提示词不能为空"), 0⟩
  else
    let rl := make_request trace
    match rl.result with
    | Except.ok body =>
      match (extractContent body).bind (fun c => arrangementPostprocess (pyStrip c)) with
      | some r => ⟨Except.ok r, rl.attempts⟩
      | none => ⟨Except.error (GenError.apiException "生成编曲失败"), rl.attempts⟩
    | Except.error _ => ⟨Except.error (GenError.apiException "生成编曲失败"), rl.attempts⟩

/-- The canned demo lyrics of `MockGenerator.generate_lyrics`
(abbreviated; no verified property reads the text, only that the call
performs no I/O and validates first). -/
def mockLyricsText : String := "【流行风格歌词示例】 主歌：在这个美好的时光里……"

/-- The canned note list of `MockGenerator.generate_melody`. -/
def mockMelodyNotes : List Note :=
  [⟨60, 0, 1/2, 80⟩, ⟨62, 1/2, 1/2, 80⟩, ⟨64, 1, 1/2, 80⟩, ⟨65, 3/2, 1/2, 80⟩,
   ⟨67, 2, 1, 85⟩]

/-- The canned track list of `MockGenerator.generate_arrangement`. -/
def mockArrangementTracks : List Track := [⟨"主旋律", []⟩, ⟨"贝斯", []⟩]

/-- `MockGenerator.generate_lyrics`: validate, then return canned data;
no network I/O ever. -/
def mockGenerateLyrics (prompt : String) : CallOutcome LyricsResult :=
  if promptInvalid prompt then ⟨Except.error (GenError.valueError "提示词不能为空"), 0⟩
  else ⟨Except.ok ⟨"lyrics", mockLyricsText, JVal.jint 0, true⟩, 0⟩

/-- `MockGenerator.generate_melody`: validate, then return the canned
note list. -/
def mockGenerateMelody (prompt : String) : CallOutcome MelodyResult :=
  if promptInvalid prompt then ⟨Except.error (GenError.valueError "提示词不能为空"), 0⟩
  else
    ⟨Except.ok ⟨"melody", MelodyData.notes mockMelodyNotes, mockMelodyNotes.length, true⟩, 0⟩

/-- `MockGenerator.generate_arrangement`: validate, then return the
canned two-track arrangement. -/
def mockGenerateArrangement (prompt : String) : CallOutcome ArrangementResult :=
  if promptInvalid prompt then ⟨Except.error (GenError.valueError "提示词不能为空"), 0⟩
  else
    ⟨Except.ok ⟨"arrangement", ArrangementData.tracks mockArrangementTracks,
        mockArrangementTracks.length, true⟩, 0⟩

/-- A provider's configuration row (`models_config[model_id]`): the keys
`create_from_config` and `update_generator_config` read.  An absent
`api_key` is the empty string (both are falsy). -/
structure ModelConfig where
  enabled : Bool
  api_key : String
  api_base : String
  model : String
deriving DecidableEq, Repr

/-- A registered generator instance: an `OpenAIClient` built from a
provider row, or the demo `MockGenerator` (constructed with
`\x7b'name': '演示模式'\x7d`). -/
inductive Gen where
  | openaiClient (cfg : ModelConfig)
  | mockGenerator (name : String)
deriving DecidableEq, Repr

/-- The configuration snapshot handed to `create_from_config`:
insertion-ordered provider rows and the optional `current_model` id. -/
structure Config where
  models : List (String × ModelConfig)
  current_model : Option String
deriving DecidableEq, Repr

/-- `GeneratorManager` state: the `_generators` dict, the
`_current_generator` instance (an instance, not an id), and the stored
`_config`. -/
structure GeneratorManager where
  generators : List (String × Gen)
  current_generator : Option Gen
  config : Config
deriving DecidableEq, Repr

/-- A freshly constructed `GeneratorManager()`. -/
def GeneratorManager.init : GeneratorManager := ⟨[], none, ⟨[], none⟩⟩

/-- `GeneratorManager.register_generator`. -/
def register_generator (m : GeneratorManager) (name : String) (g : Gen) :
    GeneratorManager :=
  { m with generators := dictInsert name g m.generators }

/-- `GeneratorManager.set_current_generator`: `ValueError` on an unknown
name, else point `_current_generator` at the registered instance. -/
def set_current_generator (m : GeneratorManager) (name : String) :
    Except String GeneratorManager :=
  match m.generators.lookup name with
  | none => Except.error ("生成器 '" ++ name ++ "' 不存在")
  | some g => Except.ok { m with current_generator := some g }

/-- `GeneratorManager.get_available_generators`. -/
def get_available_generators (m : GeneratorManager) : List String :=
  m.generators.map Prod.fst

/-- The registration condition of `create_from_config` and
`update_generator_config`: `model_config.get('enabled', False) and
model_config.get('api_key')`. -/
def qualifies (mc : ModelConfig) : Bool := mc.enabled && !(mc.api_key == "")

/-- One iteration of the registration loop of `create_from_config`:
register a row exactly when it qualifies.  (`_create_generator` only
calls the `OpenAIClient` constructor, which cannot raise, so the
logged-skip branch is dead and every qualifying row registers.) -/
def registerStep (acc : List (String × Gen)) (kv : String × ModelConfig) :
    List (String × Gen) :=
  if qualifies kv.2 then dictInsert kv.1 (Gen.openaiClient kv.2) acc else acc

/-- The registration loop of `create_from_config` over the snapshot's
rows, starting from the cleared dict. -/
def buildGenerators (models : List (String × ModelConfig)) : List (String × Gen) :=
  models.foldl registerStep []

/-- The generator dict `create_from_config` ends up with: the qualifying
rows, or the demo generator under the reserved id `mock` when none
qualified. -/
def rebuiltGens (cfg : Config) : List (String × Gen) :=
  if cfg.models.any (fun kv => qualifies kv.2) then buildGenerators cfg.models
  else dictInsert "mock" (Gen.mockGenerator "演示模式") (buildGenerators cfg.models)

/-- The id `create_from_config` then tries to promote: the snapshot's
`current_model` (default `openai`), retargeted at `mock` when nothing
qualified. -/
def rebuiltCurrentId (cfg : Config) : String :=
  if cfg.models.any (fun kv => qualifies kv.2) then cfg.current_model.getD "openai"
  else "mock"

/-- `GeneratorManager.create_from_config`: store the snapshot, clear and
rebuild the dict from the qualifying rows (demo generator injected when
none qualified); finally promote `current_model` if registered, else the
first registered entry, else leave `_current_generator` untouched
(unreachable: the rebuilt dict is never empty). -/
def create_from_config (m : GeneratorManager) (cfg : Config) : GeneratorManager :=
  let gens1 := rebuiltGens cfg
  let current :=
    match gens1.lookup (rebuiltCurrentId cfg) with
    | some g => some g
    | none =>
      match gens1 with
      | [] => m.current_generator
      | kv :: _ => some kv.2
  ⟨gens1, current, cfg⟩

/-- Python `del d[k]`. -/
def removeKey {α : Type} (k : String) (d : List (String × α)) :
    List (String × α) :=
  d.filter (fun kv => !(kv.1 == k))

/-- `GeneratorManager.update_generator_config`: drop the provider's old
entry if present; if the new row qualifies, register a fresh instance and,
when the id equals the stored snapshot's `current_model`, promote it.
Nothing else is touched: in particular `_current_generator` keeps its old
instance when the row no longer qualifies. -/
def update_generator_config (m : GeneratorManager) (model_id : String)
    (mc : ModelConfig) : GeneratorManager :=
  let m1 := if (m.generators.lookup model_id).isSome then
              { m with generators := removeKey model_id m.generators }
            else m
  if qualifies mc then
    let m2 := register_generator m1 model_id (Gen.openaiClient mc)
    if m2.config.current_model = some model_id then
      { m2 with current_generator := m2.generators.lookup model_id }
    else m2
  else m1

/-- The registry invariant of the specification: a current generator is
selected and its instance is one of the registered entries. -/
def currentInRegistry (m : GeneratorManager) : Prop :=
  ∃ g, m.current_generator = some g ∧ g ∈ m.generators.map Prod.snd

/-- C5: a 401 response makes `_make_request` raise the typed
authentication error (`APIException` with `status_code = 401`) after
exactly one attempt, whatever outcomes would have followed: no retry and
no backoff sleep. -/
theorem auth_401_single_attempt (body : JVal) (rest : List AttemptOutcome) :
    make_request (AttemptOutcome.response 401 body :: rest) =
      ⟨Except.error (ReqError.apiKeyInvalid 401), 1, []⟩ := rfl

/-- C3: if the first two attempts fail with a timeout or a
connection-level error, then (a) when the third attempt returns a
non-error status the transport makes exactly three attempts, sleeping
`2^0 = 1` and then `2^1 = 2` seconds between them, and returns the third
attempt's parsed body, and (b) when the third attempt also fails that way
it raises a `NetworkException` carrying the last cause, still with
exactly three attempts (no fourth) and the same two sleeps. -/
theorem transport_retry_backoff :
    (∀ o1 o2 s body, transient o1 → transient o2 →
      (s == 401) = false → statusIsError s = false →
      make_request [o1, o2, AttemptOutcome.response s body] =
        ⟨Except.ok body, 3, [1, 2]⟩) ∧
    (∀ o1 o2 o3, transient o1 → transient o2 → transient o3 →
      make_request [o1, o2, o3] =
        ⟨Except.error (ReqError.network (causeOf o3)), 3, [1, 2]⟩) := by
  constructor
  · rintro o1 o2 s body (rfl | rfl) (rfl | rfl) h401 herr <;>
      simp [make_request, requestLoop, h401, herr]
  · rintro o1 o2 o3 (rfl | rfl) (rfl | rfl) (rfl | rfl) <;> rfl

/-- Witness for C3 at concrete traces: two timeouts then a 200 response,
and three transient failures. -/
theorem transport_retry_backoff_witness :
    make_request [AttemptOutcome.timeout, AttemptOutcome.timeout,
        AttemptOutcome.response 200 JVal.jnull] =
      ⟨Except.ok JVal.jnull, 3, [1, 2]⟩ ∧
    make_request [AttemptOutcome.timeout, AttemptOutcome.connError,
        AttemptOutcome.timeout] =
      ⟨Except.error (ReqError.network Cause.timeout), 3, [1, 2]⟩ :=
  ⟨transport_retry_backoff.1 AttemptOutcome.timeout AttemptOutcome.timeout 200
      JVal.jnull (Or.inl rfl) (Or.inl rfl) rfl rfl,
   transport_retry_backoff.2 AttemptOutcome.timeout AttemptOutcome.connError
      AttemptOutcome.timeout (Or.inl rfl) (Or.inr rfl) (Or.inl rfl)⟩

/-- The all-400 attempt trace used to refute C2. -/
def trace400 : List AttemptOutcome :=
  [AttemptOutcome.response 400 JVal.jnull, AttemptOutcome.response 400 JVal.jnull,
   AttemptOutcome.response 400 JVal.jnull]

/-- Counterexample to C2: an HTTP 400 response is a
`requests.exceptions.HTTPError`, i.e. a `RequestException`, so the retry
handler catches it — with 400 on every attempt the transport makes three
attempts and sleeps twice, contradicting "after exactly one attempt ...
never retried and no backoff sleep occurs". -/
theorem non2xx_retried_counterexample :
    (make_request trace400).result =
      Except.error (ReqError.network (Cause.httpError 400)) ∧
    (make_request trace400).attempts = 3 ∧
    (make_request trace400).sleeps = [1, 2] ∧
    ¬ ((make_request trace400).attempts = 1 ∧ (make_request trace400).sleeps = []) :=
  ⟨rfl, rfl, rfl, by decide⟩

/-- C2 as amended: an error status (400-599) other than 401 raises a
`NetworkException` carrying the HTTP error, but it is treated like a
transient failure and retried — with such a status on every attempt the
transport makes three attempts with backoff sleeps of 1 and 2 seconds and
then fails. -/
theorem non2xx_error_retried (s : Nat) (body : JVal)
    (h401 : (s == 401) = false) (herr : statusIsError s = true) :
    make_request [AttemptOutcome.response s body, AttemptOutcome.response s body,
        AttemptOutcome.response s body] =
      ⟨Except.error (ReqError.network (Cause.httpError s)), 3, [1, 2]⟩ := by
  simp [make_request, requestLoop, h401, herr]

/-- Witness for the amended C2 at status 400. -/
theorem non2xx_error_retried_witness :
    make_request [AttemptOutcome.response 400 JVal.jnull,
        AttemptOutcome.response 400 JVal.jnull, AttemptOutcome.response 400 JVal.jnull] =
      ⟨Except.error (ReqError.network (Cause.httpError 400)), 3, [1, 2]⟩ :=
  non2xx_error_retried 400 JVal.jnull rfl rfl

/-- A helper: an empty trimmed prompt makes `_validate_prompt` raise. -/
theorem promptInvalid_of_strip_empty (prompt : String) (h : pyStrip prompt = "") :
    promptInvalid prompt = true := by
  have h2 : stripList prompt.data = [] := by
    have h3 := congrArg String.data h
    simpa [pyStrip] using h3
  simp [promptInvalid, h2]

/-- C4: for every prompt that is empty or whitespace-only after trimming,
all three generation operations on the remote generator and on the
offline generator raise the validation error (`ValueError` from
`_validate_prompt`, the spec's `ValidationError`) with zero HTTP requests
issued, whatever the network would have answered. -/
theorem empty_prompt_validation_no_request (prompt : String)
    (trace : List AttemptOutcome) (h : pyStrip prompt = "") :
    openaiGenerateLyrics prompt trace =
      ⟨Except.error (GenError.valueError "提示词不能为空"), 0⟩ ∧
    openaiGenerateMelody prompt trace =
      ⟨Except.error (GenError.valueError "提示词不能为空"), 0⟩ ∧
    openaiGenerateArrangement prompt trace =
      ⟨Except.error (GenError.valueError "提示词不能为空"), 0⟩ ∧
    mockGenerateLyrics prompt =
      ⟨Except.error (GenError.valueError "提示词不能为空"), 0⟩ ∧
    mockGenerateMelody prompt =
      ⟨Except.error (GenError.valueError "提示词不能为空"), 0⟩ ∧
    mockGenerateArrangement prompt =
      ⟨Except.error (GenError.valueError "提示词不能为空"), 0⟩ := by
  have hp := promptInvalid_of_strip_empty prompt h
  refine ⟨?_, ?_, ?_, ?_, ?_, ?_⟩ <;>
    simp [openaiGenerateLyrics, openaiGenerateMelody, openaiGenerateArrangement,
      mockGenerateLyrics, mockGenerateMelody, mockGenerateArrangement, hp]

/-- Witness for C4 at the whitespace prompt `" "` (and an arbitrary
one-response trace). -/
theorem empty_prompt_validation_no_request_witness :
    openaiGenerateLyrics " " [AttemptOutcome.response 200 JVal.jnull] =
      ⟨Except.error (GenError.valueError "提示词不能为空"), 0⟩ ∧
    mockGenerateMelody " " =
      ⟨Except.error (GenError.valueError "提示词不能为空"), 0⟩ :=
  ⟨(empty_prompt_validation_no_request " "
      [AttemptOutcome.response 200 JVal.jnull] rfl).1,
   (empty_prompt_validation_no_request " "
      [AttemptOutcome.response 200 JVal.jnull] rfl).2.2.2.2.1⟩

/-- A successful association-list lookup returns one of the stored
values. -/
theorem lookup_mem {α : Type} (k : String) (v : α) :
    ∀ (l : List (String × α)), l.lookup k = some v → v ∈ l.map Prod.snd := by
  intro l
  induction l with
  | nil => intro h; simp [List.lookup] at h
  | cons kv rest ih =>
      intro h
      rcases kv with ⟨k1, b⟩
      rw [List.lookup] at h
      cases hk : (k == k1) with
      | true =>
          rw [hk] at h
          cases h
          simp
      | false =>
          rw [hk] at h
          simpa using Or.inr (List.mem_map.1 (ih h))

/-- Inserting into a dict never empties it. -/
theorem dictInsert_ne_nil {α : Type} (k : String) (v : α)
    (d : List (String × α)) : dictInsert k v d ≠ [] := by
  unfold dictInsert
  split
  · rename_i hany
    intro h
    rw [List.map_eq_nil_iff] at h
    rw [h] at hany
    simp at hany
  · simp

/-- The registration fold yields a nonempty dict as soon as the
accumulator is nonempty or some row qualifies. -/
theorem registerFold_ne_nil :
    ∀ (models : List (String × ModelConfig)) (acc : List (String × Gen)),
      acc ≠ [] ∨ models.any (fun kv => qualifies kv.2) = true →
      models.foldl registerStep acc ≠ [] := by
  intro models
  induction models with
  | nil =>
      intro acc h
      rcases h with h | h
      · simpa using h
      · simp at h
  | cons kv rest ih =>
      intro acc h
      rw [List.foldl_cons]
      rcases h with h | h
      · refine ih _ (Or.inl ?_)
        unfold registerStep
        split
        · exact dictInsert_ne_nil _ _ _
        · exact h
      · rw [List.any_cons] at h
        cases hq : qualifies kv.2 with
        | true =>
            refine ih _ (Or.inl ?_)
            simp only [registerStep, hq, if_true]
            exact dictInsert_ne_nil _ _ _
        | false =>
            refine ih _ (Or.inr ?_)
            rw [hq] at h
            simpa using h

/-- When no row qualifies the registration fold registers nothing. -/
theorem registerFold_skip_all :
    ∀ (models : List (String × ModelConfig)) (acc : List (String × Gen)),
      (∀ kv ∈ models, qualifies kv.2 = false) →
      models.foldl registerStep acc = acc := by
  intro models
  induction models with
  | nil => intro acc _; rfl
  | cons kv rest ih =>
      intro acc h
      rw [List.foldl_cons]
      have hq := h kv (List.mem_cons_self kv rest)
      rw [show registerStep acc kv = acc by simp [registerStep, hq]]
      exact ih acc fun x hx => h x (List.mem_cons_of_mem _ hx)

/-- The rebuilt dict is never empty (the key resilience fact). -/
theorem rebuiltGens_ne_nil (cfg : Config) : rebuiltGens cfg ≠ [] := by
  unfold rebuiltGens
  cases hany : cfg.models.any (fun kv => qualifies kv.2) with
  | true => exact registerFold_ne_nil _ _ (Or.inr hany)
  | false => exact dictInsert_ne_nil _ _ _

/-- C1: whenever no provider row of the snapshot is both enabled and
credentialed (in particular for the empty snapshot), the rebuild ends
with exactly one registered generator — the demo (offline) generator
under the reserved id `mock` — and that instance becomes the current
generator, so a current generator is resolvable after the rebuild. -/
theorem rebuild_empty_snapshot_offline (m : GeneratorManager) (cfg : Config)
    (h : ∀ kv ∈ cfg.models, qualifies kv.2 = false) :
    (create_from_config m cfg).generators =
      [("mock", Gen.mockGenerator "演示模式")] ∧
    (create_from_config m cfg).current_generator =
      some (Gen.mockGenerator "演示模式") := by
  have hany : cfg.models.any (fun kv => qualifies kv.2) = false := by
    rw [List.any_eq_false]
    intro kv hkv
    simp [h kv hkv]
  have hgens : rebuiltGens cfg = [("mock", Gen.mockGenerator "演示模式")] := by
    unfold rebuiltGens
    rw [hany]
    rw [show buildGenerators cfg.models = [] from registerFold_skip_all _ _ h]
    rfl
  have hid : rebuiltCurrentId cfg = "mock" := by
    unfold rebuiltCurrentId
    rw [hany]
    rfl
  refine ⟨hgens, ?_⟩
  have hc : (create_from_config m cfg).current_generator =
      (match (rebuiltGens cfg).lookup (rebuiltCurrentId cfg) with
       | some g => some g
       | none =>
         match rebuiltGens cfg with
         | [] => m.current_generator
         | kv :: _ => some kv.2) := rfl
  rw [hc, hgens, hid]
  rfl

/-- Witness for C1 at the empty snapshot. -/
theorem rebuild_empty_snapshot_offline_witness :
    (create_from_config GeneratorManager.init ⟨[], none⟩).generators =
      [("mock", Gen.mockGenerator "演示模式")] ∧
    (create_from_config GeneratorManager.init ⟨[], none⟩).current_generator =
      some (Gen.mockGenerator "演示模式") :=
  rebuild_empty_snapshot_offline GeneratorManager.init ⟨[], none⟩
    (fun kv hkv => absurd hkv (List.not_mem_nil kv))

/-- An enabled, credentialed provider row. -/
def cfgEnabledA : ModelConfig := ⟨true, "key-a", "https://api.example.com/v1", "gpt-4"⟩

/-- The same provider row with `enabled` turned off. -/
def cfgDisabledA : ModelConfig := ⟨false, "key-a", "https://api.example.com/v1", "gpt-4"⟩

/-- A snapshot with the single enabled provider `a`, selected as
current. -/
def snapshotA : Config := ⟨[("a", cfgEnabledA)], some "a"⟩

/-- Rebuild from `snapshotA`, then disable provider `a` through
`update_generator_config`. -/
def mgrAfterDisable : GeneratorManager :=
  update_generator_config (create_from_config GeneratorManager.init snapshotA)
    "a" cfgDisabledA

/-- Counterexample to C9: after a rebuild that made provider `a` current,
`update_generator_config('a', disabled-row)` deletes the entry and
registers nothing in its place — the entry set becomes empty (no offline
entry is synthesized there) while `_current_generator` still holds the
deleted instance, so the "current refers to a registered entry" invariant
is not preserved by every registry operation. -/
theorem update_config_breaks_invariant :
    mgrAfterDisable.generators = [] ∧
    mgrAfterDisable.current_generator = some (Gen.openaiClient cfgEnabledA) ∧
    ¬ currentInRegistry mgrAfterDisable := by
  refine ⟨by decide, by decide, ?_⟩
  rintro ⟨g, hg, hmem⟩
  have hnil : mgrAfterDisable.generators = [] := by decide
  rw [hnil] at hmem
  simp at hmem

/-- C9 as amended: after every rebuild exactly one generator is current
and its instance is registered (promoted by id, with fallback to the
first entry, and with the offline entry synthesized when nothing
qualified); selecting by id preserves the invariant and leaves the entry
set unchanged.  (Per-provider config update — and id-reuse through
register — can break the invariant, as the counterexample shows.) -/
theorem rebuild_select_invariant :
    (∀ (m : GeneratorManager) (cfg : Config),
      currentInRegistry (create_from_config m cfg)) ∧
    (∀ (m m2 : GeneratorManager) (name : String),
      set_current_generator m name = Except.ok m2 →
      currentInRegistry m2 ∧ m2.generators = m.generators) := by
  constructor
  · intro m cfg
    have hne := rebuiltGens_ne_nil cfg
    have hc : (create_from_config m cfg).current_generator =
        (match (rebuiltGens cfg).lookup (rebuiltCurrentId cfg) with
         | some g => some g
         | none =>
           match rebuiltGens cfg with
           | [] => m.current_generator
           | kv :: _ => some kv.2) := rfl
    have hgens : (create_from_config m cfg).generators = rebuiltGens cfg := rfl
    rcases hlk : (rebuiltGens cfg).lookup (rebuiltCurrentId cfg) with _ | g
    · rcases hg : rebuiltGens cfg with _ | ⟨kv, t⟩
      · exact absurd hg hne
      · refine ⟨kv.2, ?_, ?_⟩
        · rw [hc, hlk, hg]
        · rw [hgens, hg]
          simp
    · refine ⟨g, ?_, ?_⟩
      · rw [hc, hlk]
      · rw [hgens]
        exact lookup_mem _ _ _ hlk
  · intro m m2 name h
    unfold set_current_generator at h
    rcases hlk : m.generators.lookup name with _ | g
    · rw [hlk] at h
      cases h
    · rw [hlk] at h
      cases h
      exact ⟨⟨g, rfl, lookup_mem _ _ _ hlk⟩, rfl⟩

/-- Witness for the amended C9: the rebuild invariant at a concrete
snapshot, and select-by-id on the rebuilt manager. -/
theorem rebuild_select_invariant_witness :
    currentInRegistry (create_from_config GeneratorManager.init snapshotA) ∧
    currentInRegistry (create_from_config GeneratorManager.init snapshotA) ∧
    (create_from_config GeneratorManager.init snapshotA).generators =
      (create_from_config GeneratorManager.init snapshotA).generators :=
  ⟨rebuild_select_invariant.1 GeneratorManager.init snapshotA,
   (rebuild_select_invariant.2 (create_from_config GeneratorManager.init snapshotA)
      (create_from_config GeneratorManager.init snapshotA) "a" rfl).1,
   ((rebuild_select_invariant.2 (create_from_config GeneratorManager.init snapshotA)
      (create_from_config GeneratorManager.init snapshotA) "a" rfl).2)⟩

/-- The strict-JSON melody content of the specification's round-trip
property. -/
def melodyJsonContent : String :=
  "[\x7b\"pitch\":60,\"start_time\":0,\"duration\":0.5,\"velocity\":80\x7d]"

/-- What `json.loads` produces for `melodyJsonContent`. -/
def melodyJsonDecoded : JVal :=
  JVal.jarr [JVal.jobj [("pitch", JVal.jint 60), ("start_time", JVal.jint 0),
    ("duration", JVal.jfloat (1/2)), ("velocity", JVal.jint 80)]]

/-- C6: the strict decode result is always the one used — whenever
`json.loads` succeeds, the result's `data` is exactly the decoded value
and recovery is never consulted (no hybrid merge); a valid JSON array
yields `data` equal to the decoded note list with `notes_count` its
length; on the specification's concrete single-note content the decode
yields exactly the one-object array, the envelope carries it with count 1
and success, and that object agrees field-by-field with the note
(60, 0, 0.5, 80) under Python numeric equality. -/
theorem strict_decode_preferred :
    (∀ content v, jsonLoads content = some v →
      ∀ r, melodyPostprocess content = some r → r.data = MelodyData.decoded v) ∧
    (∀ content xs, jsonLoads content = some (JVal.jarr xs) →
      melodyPostprocess content =
        some ⟨"melody", MelodyData.decoded (JVal.jarr xs), xs.length, true⟩) ∧
    jsonLoads melodyJsonContent = some melodyJsonDecoded ∧
    melodyPostprocess melodyJsonContent =
      some ⟨"melody", MelodyData.decoded melodyJsonDecoded, 1, true⟩ ∧
    noteMatches (JVal.jobj [("pitch", JVal.jint 60), ("start_time", JVal.jint 0),
      ("duration", JVal.jfloat (1/2)), ("velocity", JVal.jint 80)]) ⟨60, 0, 1/2, 80⟩ := by
  refine ⟨?_, ?_, ?_, ?_, ?_⟩
  · intro content v hv r hr
    simp only [melodyPostprocess, hv] at hr
    rcases Option.map_eq_some'.1 hr with ⟨n, _, hrfl⟩
    rw [← hrfl]
  · intro content xs h
    simp only [melodyPostprocess, h]
    rfl
  · with_unfolding_all rfl
  · with_unfolding_all rfl
  · exact ⟨rfl, rfl, by with_unfolding_all rfl, rfl⟩

/-- Witness for C6: the general array case applied at the concrete
single-note content (the decode hypothesis discharged by the theorem's
own concrete conjunct). -/
theorem strict_decode_preferred_witness :
    melodyPostprocess melodyJsonContent =
      some ⟨"melody", MelodyData.decoded melodyJsonDecoded, 1, true⟩ :=
  strict_decode_preferred.2.1 melodyJsonContent
    [JVal.jobj [("pitch", JVal.jint 60), ("start_time", JVal.jint 0),
      ("duration", JVal.jfloat (1/2)), ("velocity", JVal.jint 80)]]
    strict_decode_preferred.2.2.1

/-- C8: when the recovery patterns find zero matches, melody recovery
returns the empty note list and arrangement recovery the empty track
list, with no exception, and the resulting envelopes (reached because
strict decoding failed) are successful with item count 0. -/
theorem zero_matches_empty_success (content : String)
    (hm : findall melodyToks content.data = [])
    (ht : findall trackToks content.data = [])
    (hj : jsonLoads content = none) :
    parse_melody_from_text content = some [] ∧
    parse_arrangement_from_text content = some [] ∧
    melodyPostprocess content = some ⟨"melody", MelodyData.notes [], 0, true⟩ ∧
    arrangementPostprocess content =
      some ⟨"arrangement", ArrangementData.tracks [], 0, true⟩ := by
  have h1 : parse_melody_from_text content = some [] := by
    rw [parse_melody_from_text, hm]
    rfl
  have h2 : parse_arrangement_from_text content = some [] := by
    rw [parse_arrangement_from_text, ht]
    rfl
  refine ⟨h1, h2, ?_, ?_⟩
  · simp only [melodyPostprocess, hj, h1]
    rfl
  · simp only [arrangementPostprocess, hj, h2]
    rfl

/-- Witness for C8 at a concrete free-text content with no matches. -/
theorem zero_matches_empty_success_witness :
    parse_melody_from_text "no recognizable notes" = some [] ∧
    parse_arrangement_from_text "no recognizable notes" = some [] ∧
    melodyPostprocess "no recognizable notes" =
      some ⟨"melody", MelodyData.notes [], 0, true⟩ ∧
    arrangementPostprocess "no recognizable notes" =
      some ⟨"arrangement", ArrangementData.tracks [], 0, true⟩ :=
  zero_matches_empty_success "no recognizable notes" (by rfl) (by rfl) (by rfl)

/-- A melody text containing all four fields, but with `start_time`
written before `pitch`. -/
def reorderedFieldsText : String :=
  "start_time: 1.0, pitch: 64, duration: 0.5, velocity: 90"

/-- Counterexample to C7: the recovery pattern requires the four fields
in the fixed order pitch, start_time, duration, velocity, not "in any
order" — on a text containing all four fields with `start_time` first,
recovery builds zero notes instead of the one note (64, 1.0, 0.5, 90). -/
theorem any_order_counterexample :
    occursCI "pitch" reorderedFieldsText = true ∧
    occursCI "start_time" reorderedFieldsText = true ∧
    occursCI "duration" reorderedFieldsText = true ∧
    occursCI "velocity" reorderedFieldsText = true ∧
    parse_melody_from_text reorderedFieldsText = some [] ∧
    parse_melody_from_text reorderedFieldsText ≠
      some [⟨64, 1, 1/2, 90⟩] := by
  decide

/-- C7 as amended: recovery builds one note per fragment in which the
four fields appear in the fixed order pitch, start_time, duration,
velocity (matching case-insensitively, coercing pitch/velocity to int and
start_time/duration to float), and text that does not match the ordered
pattern is silently dropped without raising: the specification's prose
example (fields in that order) yields exactly the note (64, 1.0, 0.5,
90), the upper-case variant yields the same note, and a fragment with a
non-numeric pitch yields zero notes and no error. -/
theorem ordered_pattern_recovery :
    parse_melody_from_text
        "Here are the notes: pitch: 64, start_time: 1.0, duration: 0.5, velocity: 90. Enjoy!" =
      some [⟨64, 1, 1/2, 90⟩] ∧
    parse_melody_from_text "PITCH: 64 START_TIME: 1.0 DURATION: 0.5 VELOCITY: 90" =
      some [⟨64, 1, 1/2, 90⟩] ∧
    parse_melody_from_text "pitch: oops start_time: 1.0 duration: 0.5 velocity: 90" =
      some [] := by
  refine ⟨by with_unfolding_all rfl, by with_unfolding_all rfl, by decide⟩

/-- The class discipline of captured groups: every capture produced by a
pattern comes from its capturing token's character class, and a greedy
`( ... )+` capture is nonempty. -/
def capsOkB : List Tok → List (List Char) → Bool
  | [], [] => true
  | [], _ :: _ => false
  | Tok.lit _ :: ts, caps => capsOkB ts caps
  | Tok.plus p true :: ts, cap :: caps =>
      (!cap.isEmpty) && cap.all p && capsOkB ts caps
  | Tok.plus _ true :: _, [] => false
  | Tok.plus _ false :: ts, caps => capsOkB ts caps
  | Tok.lazyStar p true :: ts, cap :: caps => cap.all p && capsOkB ts caps
  | Tok.lazyStar _ true :: _, [] => false
  | Tok.lazyStar _ false :: ts, caps => capsOkB ts caps

/-- A prefix of the matched region of `takeWhile p` satisfies `p`
throughout. -/
theorem take_all_of_le_takeWhile (p : Char → Bool) :
    ∀ (cs : List Char) (k : Nat), k ≤ (cs.takeWhile p).length →
      (cs.take k).all p = true := by
  intro cs
  induction cs with
  | nil =>
      intro k hk
      simp only [List.takeWhile_nil, List.length_nil, Nat.le_zero] at hk
      subst hk
      rfl
  | cons c t ih =>
      intro k hk
      cases hp : p c with
      | true =>
          rw [List.takeWhile_cons_of_pos hp] at hk
          cases k with
          | zero => rfl
          | succ k =>
              simp only [List.length_cons, Nat.succ_le_succ_iff] at hk
              simp only [List.take_succ_cons, List.all_cons, hp, Bool.true_and]
              exact ih k hk
      | false =>
          rw [List.takeWhile_cons_of_neg (by simp [hp])] at hk
          simp only [List.length_nil, Nat.le_zero] at hk
          subst hk
          rfl

/-- A nonempty prefix of the matched region of `takeWhile p` is
nonempty. -/
theorem take_ne_nil_of_le_takeWhile (p : Char → Bool) (cs : List Char) (k : Nat)
    (h1 : 1 ≤ k) (hk : k ≤ (cs.takeWhile p).length) : cs.take k ≠ [] := by
  have hlen : (cs.takeWhile p).length ≤ cs.length :=
    (List.takeWhile_sublist p).length_le
  apply List.ne_nil_of_length_pos
  rw [List.length_take]
  omega

/-- Soundness of the matcher for the class discipline: every successful
match yields captures obeying `capsOkB`. -/
theorem matchSeq_capsOk :
    ∀ (fuel : Nat) (ts : List Tok) (cs : List Char) (caps : List (List Char))
      (rest : List Char), matchSeq fuel ts cs = some (caps, rest) →
      capsOkB ts caps = true := by
  intro fuel
  induction fuel with
  | zero =>
      intro ts cs caps rest h
      simp [matchSeq] at h
  | succ fuel ih =>
      intro ts cs caps rest h
      cases ts with
      | nil =>
          simp only [matchSeq, Option.some.injEq, Prod.mk.injEq] at h
          rw [← h.1]
          rfl
      | cons t ts1 =>
          cases t with
          | lit s =>
              simp only [matchSeq] at h
              split at h
              · exact ih ts1 (cs.drop s.data.length) caps rest h
              · cases h
          | plus p cap =>
              simp only [matchSeq] at h
              rcases List.exists_of_findSome?_eq_some h with ⟨k, hkmem, hk⟩
              rcases Option.map_eq_some'.1 hk with ⟨⟨caps1, rest1⟩, hms, heq⟩
              have hco := ih ts1 (cs.drop k) caps1 rest1 hms
              have hkb : 1 ≤ k ∧ k ≤ (cs.takeWhile p).length := by
                simp only [List.mem_map, List.mem_reverse, List.mem_range] at hkmem
                rcases hkmem with ⟨i, hi, rfl⟩
                omega
              cases cap with
              | true =>
                  simp only [if_true] at heq
                  injection heq with h1 h2
                  subst h1
                  simp only [capsOkB, Bool.and_eq_true]
                  refine ⟨⟨?_, take_all_of_le_takeWhile p cs k hkb.2⟩, hco⟩
                  have hne := take_ne_nil_of_le_takeWhile p cs k hkb.1 hkb.2
                  cases htk : cs.take k with
                  | nil => exact absurd htk hne
                  | cons a l => rfl
              | false =>
                  simp only [if_false, Bool.false_eq_true] at heq
                  injection heq with h1 h2
                  subst h1
                  exact hco
          | lazyStar p cap =>
              simp only [matchSeq] at h
              rcases List.exists_of_findSome?_eq_some h with ⟨k, hkmem, hk⟩
              rcases Option.map_eq_some'.1 hk with ⟨⟨caps1, rest1⟩, hms, heq⟩
              have hco := ih ts1 (cs.drop k) caps1 rest1 hms
              have hkb : k ≤ (cs.takeWhile p).length := by
                simp only [List.mem_range] at hkmem
                omega
              cases cap with
              | true =>
                  simp only [if_true] at heq
                  injection heq with h1 h2
                  subst h1
                  simp only [capsOkB, Bool.and_eq_true]
                  exact ⟨take_all_of_le_takeWhile p cs k hkb, hco⟩
              | false =>
                  simp only [if_false, Bool.false_eq_true] at heq
                  injection heq with h1 h2
                  subst h1
                  exact hco

/-- Every capture tuple returned by the scanning loop obeys the class
discipline. -/
theorem findallGo_capsOk (ts : List Tok) :
    ∀ (fuel : Nat) (cs : List Char) (caps : List (List Char)),
      caps ∈ findallGo ts fuel cs → capsOkB ts caps = true := by
  intro fuel
  induction fuel with
  | zero =>
      intro cs caps h
      simp [findallGo] at h
  | succ fuel ih =>
      intro cs caps h
      cases cs with
      | nil => simp [findallGo] at h
      | cons c rest =>
          rw [findallGo] at h
          cases hm : matchSeq (ts.length + 1) ts (c :: rest) with
          | none =>
              rw [hm] at h
              exact ih _ _ h
          | some pr =>
              rcases pr with ⟨caps1, restAfter⟩
              rw [hm] at h
              rcases List.mem_cons.1 h with rfl | h2
              · exact matchSeq_capsOk _ _ _ _ _ hm
              · exact ih _ _ h2

/-- Every capture tuple of `findall` obeys the class discipline. -/
theorem findall_capsOk (ts : List Tok) (text : List Char)
    (caps : List (List Char)) (h : caps ∈ findall ts text) :
    capsOkB ts caps = true :=
  findallGo_capsOk ts (text.length + 1) text caps h

/-- Inversion for the collecting loop: every produced item comes from one
of the inputs. -/
theorem collectSome_mem {α β : Type} (f : α → Option β) :
    ∀ (l : List α) (l2 : List β), collectSome f l = some l2 →
      ∀ b ∈ l2, ∃ a ∈ l, f a = some b := by
  intro l
  induction l with
  | nil =>
      intro l2 h b hb
      cases h
      simp at hb
  | cons a t ih =>
      intro l2 h b hb
      rw [collectSome] at h
      cases hfa : f a with
      | none => rw [hfa] at h; cases h
      | some b0 =>
          cases hrest : collectSome f t with
          | none => rw [hfa, hrest] at h; cases h
          | some bs =>
              rw [hfa, hrest] at h
              cases h
              rcases List.mem_cons.1 hb with rfl | hb2
              · exact ⟨a, List.mem_cons_self a t, hfa⟩
              · rcases ih bs hrest b hb2 with ⟨a2, ha2, hfa2⟩
                exact ⟨a2, List.mem_cons_of_mem _ ha2, hfa2⟩

/-- A character inside the stripped string was in the original string. -/
theorem mem_stripList {c : Char} {cs : List Char} (h : c ∈ stripList cs) :
    c ∈ cs := by
  unfold stripList at h
  rw [List.mem_reverse] at h
  have h2 := (List.dropWhile_sublist (l := (cs.dropWhile isPyWs).reverse)
    (p := isPyWs)).subset h
  rw [List.mem_reverse] at h2
  exact (List.dropWhile_sublist (l := cs) (p := isPyWs)).subset h2

/-- `int()` of an all-digit capture is nonnegative. -/
theorem pyInt_digits_nonneg (cs : List Char) (hd : cs.all isAsciiDigit = true)
    (v : Int) (hv : pyInt cs = some v) : 0 ≤ v := by
  simp only [pyInt] at hv
  split at hv
  · rename_i ds heq
    exfalso
    have hmem : '-' ∈ stripList cs := by
      rw [heq]
      exact List.mem_cons_self _ _
    have h2 := List.all_eq_true.1 hd '-' (mem_stripList hmem)
    exact absurd h2 (by decide)
  · rcases Option.map_eq_some'.1 hv with ⟨n, _, hveq⟩
    rw [← hveq]
    exact Int.natCast_nonneg n
  · rcases Option.map_eq_some'.1 hv with ⟨n, _, hveq⟩
    rw [← hveq]
    exact Int.natCast_nonneg n

/-- The unsigned magnitude of `float()` is always nonnegative. -/
theorem pyFloatMag_nonneg (cs1 : List Char) (m : ℚ)
    (h : pyFloatMag cs1 = some m) : 0 ≤ m := by
  simp only [pyFloatMag] at h
  split at h
  · cases h
  · split at h
    · cases h
      positivity
    · split at h
      · split at h
        · cases h
          positivity
        · cases h
      · cases h

/-- `pySign` either reads no sign, or reads the explicit leading `-` or
`+`. -/
theorem pySign_spec (cs : List Char) :
    pySign cs = (1, cs) ∨ (∃ r, cs = '-' :: r ∧ pySign cs = (-1, r)) ∨
      (∃ r, cs = '+' :: r ∧ pySign cs = (1, r)) := by
  cases cs with
  | nil => left; rfl
  | cons c t =>
      by_cases h1 : c = '-'
      · subst h1
        right; left
        exact ⟨t, rfl, rfl⟩
      · by_cases h2 : c = '+'
        · subst h2
          right; right
          exact ⟨t, rfl, rfl⟩
        · left
          rw [pySign.eq_def]
          split
          · rename_i r heq
            injection heq with hc _
            exact absurd hc h1
          · rename_i r heq
            injection heq with hc _
            exact absurd hc h2
          · rfl

/-- `float()` of a capture made of digits and dots is nonnegative. -/
theorem pyFloat_digitdot_nonneg (cs : List Char)
    (hd : cs.all isDigitOrDot = true) (q : ℚ) (hq : pyFloat cs = some q) :
    0 ≤ q := by
  simp only [pyFloat] at hq
  rcases Option.map_eq_some'.1 hq with ⟨m, hm, hqe⟩
  have hmag := pyFloatMag_nonneg _ _ hm
  rcases pySign_spec (stripList cs) with hs | ⟨r, hr, hs⟩ | ⟨r, hr, hs⟩
  · rw [hs] at hqe
    rw [← hqe]
    simpa using hmag
  · exfalso
    have hmem : '-' ∈ stripList cs := by
      rw [hr]
      exact List.mem_cons_self _ _
    have h2 := List.all_eq_true.1 hd '-' (mem_stripList hmem)
    exact absurd h2 (by decide)
  · rw [hs] at hqe
    rw [← hqe]
    simpa using hmag

/-- A note built from captures obeying the melody pattern's class
discipline has nonnegative fields. -/
theorem mkNote_fields_nonneg (p st d v : List Char)
    (hp : p.all isAsciiDigit = true) (hst : st.all isDigitOrDot = true)
    (hd : d.all isDigitOrDot = true) (hv : v.all isAsciiDigit = true)
    (n : Note) (hn : mkNote [p, st, d, v] = some n) :
    0 ≤ n.pitch ∧ 0 ≤ n.start_time ∧ 0 ≤ n.duration ∧ 0 ≤ n.velocity := by
  simp only [mkNote, Option.bind_eq_bind] at hn
  rcases Option.bind_eq_some.1 hn with ⟨pi, hpi, hn2⟩
  rcases Option.bind_eq_some.1 hn2 with ⟨sti, hsti, hn3⟩
  rcases Option.bind_eq_some.1 hn3 with ⟨di, hdi, hn4⟩
  rcases Option.bind_eq_some.1 hn4 with ⟨vi, hvi, hn5⟩
  cases hn5
  exact ⟨pyInt_digits_nonneg p hp pi hpi, pyFloat_digitdot_nonneg st hst sti hsti,
    pyFloat_digitdot_nonneg d hd di hdi, pyInt_digits_nonneg v hv vi hvi⟩

/-- The class facts delivered by the melody pattern for a four-capture
tuple. -/
theorem capsOkB_melody (p st d v : List Char)
    (h : capsOkB melodyToks [p, st, d, v] = true) :
    p.all isAsciiDigit = true ∧ st.all isDigitOrDot = true ∧
      d.all isDigitOrDot = true ∧ v.all isAsciiDigit = true := by
  simp only [melodyToks, capsOkB, Bool.and_eq_true] at h
  tauto

/-- The class facts delivered by the per-note pattern (the melody pattern
wrapped in braces) for a four-capture tuple. -/
theorem capsOkB_note (p st d v : List Char)
    (h : capsOkB noteToks [p, st, d, v] = true) :
    p.all isAsciiDigit = true ∧ st.all isDigitOrDot = true ∧
      d.all isDigitOrDot = true ∧ v.all isAsciiDigit = true := by
  simp only [noteToks, melodyToks, List.cons_append, List.nil_append, capsOkB,
    Bool.and_eq_true] at h
  tauto

/-- Nonnegativity of every note recovered through a given pattern whose
four captures obey the digit/digit-dot classes. -/
theorem recoveredNotes_nonneg (toks : List Tok)
    (hinv : ∀ p st d v, capsOkB toks [p, st, d, v] = true →
      p.all isAsciiDigit = true ∧ st.all isDigitOrDot = true ∧
        d.all isDigitOrDot = true ∧ v.all isAsciiDigit = true)
    (text : List Char) (ns : List Note)
    (h : collectSome mkNote (findall toks text) = some ns) :
    ∀ n ∈ ns, 0 ≤ n.pitch ∧ 0 ≤ n.start_time ∧ 0 ≤ n.duration ∧ 0 ≤ n.velocity := by
  intro n hn
  rcases collectSome_mem mkNote _ _ h n hn with ⟨caps, hcaps, hmk⟩
  have hco := findall_capsOk toks text caps hcaps
  match caps, hmk with
  | [p, st, d, v], hmk =>
      rcases hinv p st d v hco with ⟨hp, hst, hd, hv⟩
      exact mkNote_fields_nonneg p st d v hp hst hd hv n hmk

/-- C10: every note produced by pattern recovery — for the melody text
and for each recovered arrangement track — has nonnegative integer pitch
and velocity and nonnegative rational start time and duration (the
patterns capture only unsigned digit sequences), while no upper bound is
enforced: a recovered pitch of 200 and velocity of 300 pass through
unchanged. -/
theorem recovered_note_field_ranges :
    (∀ text ns, parse_melody_from_text text = some ns → ∀ n ∈ ns,
        0 ≤ n.pitch ∧ 0 ≤ n.start_time ∧ 0 ≤ n.duration ∧ 0 ≤ n.velocity) ∧
    (∀ text ts, parse_arrangement_from_text text = some ts → ∀ t ∈ ts,
        ∀ n ∈ t.notes,
        0 ≤ n.pitch ∧ 0 ≤ n.start_time ∧ 0 ≤ n.duration ∧ 0 ≤ n.velocity) ∧
    parse_melody_from_text "pitch: 200 start_time: 0 duration: 0.5 velocity: 300" =
      some [⟨200, 0, 1/2, 300⟩] := by
  refine ⟨?_, ?_, by with_unfolding_all rfl⟩
  · intro text ns h
    exact recoveredNotes_nonneg melodyToks capsOkB_melody text.data ns h
  · intro text ts h t ht n hn
    rcases collectSome_mem mkTrack _ _ h t ht with ⟨caps, _, hmk⟩
    match caps, hmk with
    | [nm, notesText], hmk =>
        simp only [mkTrack] at hmk
        rcases Option.map_eq_some'.1 hmk with ⟨ns, hns, hteq⟩
        have hmem : n ∈ ns := by
          rw [← hteq] at hn
          exact hn
        exact recoveredNotes_nonneg noteToks capsOkB_note notesText ns hns n hmem

/-- Witness for C10: the general melody bound applied at the concrete
above-range text. -/
theorem recovered_note_field_ranges_witness :
    0 ≤ (Note.mk 200 0 (1/2) 300).pitch ∧
      0 ≤ (Note.mk 200 0 (1/2) 300).start_time ∧
      0 ≤ (Note.mk 200 0 (1/2) 300).duration ∧
      0 ≤ (Note.mk 200 0 (1/2) 300).velocity :=
  recovered_note_field_ranges.1
    "pitch: 200 start_time: 0 duration: 0.5 velocity: 300"
    [Note.mk 200 0 (1/2) 300] (by with_unfolding_all rfl)
    (Note.mk 200 0 (1/2) 300) (List.mem_singleton.mpr rfl)

end MusicMaker
